import Mathlib

/-
Verification development for the code-search-rag repository.

Python strings are modelled as `List Char`; machine floats are modelled by
exact rationals (ℚ), which is faithful here because every claim at stake is
about order, clamping and counting, not about rounding.  Effectful calls
(network fetches, database stores, the Cortex backend) are modelled by
explicit outcome oracles passed as arguments.
-/

namespace CodeSearchRag

/-! ### String primitives (Python `str` operations on `List Char`) -/

/-- Python whitespace characters (the ASCII ones, which are all that occur). -/
def isPySpace (c : Char) : Bool :=
  c = ' ' || c = '\t' || c = '\n' || c = '\r' || c = Char.ofNat 11 || c = Char.ofNat 12

/-- `str.lower()` (ASCII). -/
def lowerL (s : List Char) : List Char := s.map Char.toLower

/-- Does `pat` occur at the start of `s`? -/
def startsWith : List Char → List Char → Bool
  | [], _ => true
  | _ :: _, [] => false
  | a :: as, b :: bs => a == b && startsWith as bs

/-- Python `pat in s` (substring test). -/
def containsSub (pat : List Char) : List Char → Bool
  | [] => startsWith pat []
  | c :: cs => startsWith pat (c :: cs) || containsSub pat cs

/-- Python `s.index(pat)` for a pattern known to occur (0 otherwise). -/
def idxSub (pat : List Char) : List Char → Nat
  | [] => 0
  | c :: cs => if startsWith pat (c :: cs) then 0 else 1 + idxSub pat cs

/-- Helper for `countSub`: non-overlapping scan with a pending skip counter. -/
def countSubGo (pat : List Char) (skip : Nat) : List Char → Nat
  | [] => 0
  | c :: cs =>
    match skip with
    | k + 1 => countSubGo pat k cs
    | 0 =>
      if startsWith pat (c :: cs) then 1 + countSubGo pat (pat.length - 1) cs
      else countSubGo pat 0 cs

/-- Python `s.count(pat)`: non-overlapping occurrences; `count('')` is `len+1`. -/
def countSub (pat s : List Char) : Nat :=
  if pat.isEmpty then s.length + 1 else countSubGo pat 0 s

/-- Helper for `pySplitWs`: accumulate the current word (reversed). -/
def pySplitWsGo (cur : List Char) : List Char → List (List Char)
  | [] => if cur.isEmpty then [] else [cur.reverse]
  | c :: cs =>
    if isPySpace c then
      if cur.isEmpty then pySplitWsGo [] cs else cur.reverse :: pySplitWsGo [] cs
    else pySplitWsGo (c :: cur) cs

/-- Python `s.split()`: split on whitespace runs, no empty items. -/
def pySplitWs (s : List Char) : List (List Char) := pySplitWsGo [] s

/-- Python `s.split(sep)` for a single-character separator (keeps empties). -/
def splitOnChar (sep : Char) : List Char → List (List Char)
  | [] => [[]]
  | c :: cs =>
    if c = sep then [] :: splitOnChar sep cs
    else
      let r := splitOnChar sep cs
      (c :: r.headI) :: r.tail

/-- Python `s.strip()`. -/
def pyStrip (s : List Char) : List Char :=
  ((s.dropWhile isPySpace).reverse.dropWhile isPySpace).reverse

/-- Python `'\n'.join(lines)`. -/
def joinNl : List (List Char) → List Char
  | [] => []
  | [x] => x
  | x :: y :: t => x ++ '\n' :: joinNl (y :: t)

/-- Python `s.replace('\r\n', '\n')` (left-to-right, non-overlapping). -/
def replaceCRLF : List Char → List Char
  | [] => []
  | '\r' :: '\n' :: rest => '\n' :: replaceCRLF rest
  | c :: rest => c :: replaceCRLF rest

/-- Python `s.endswith(suf)`. -/
def endsWithL (suf s : List Char) : Bool := startsWith suf.reverse s.reverse

/-! ### Chunker — `RepositoryProcessor._split_into_chunks` -/

/-- The single entry of the `chunk_markers` dict: `'class '` starts a chunk. -/
def markerClass : List Char := "class ".toList

/-- The blank-run boundary: current line blank, buffer has ≥ 2 lines, and its
last two lines are blank (`current_chunk[-1]` / `current_chunk[-2]`). -/
def blankRun (line : List Char) (cur : List (List Char)) : Bool :=
  match cur.reverse with
  | l1 :: l2 :: _ =>
    (pyStrip line).isEmpty && (pyStrip l1).isEmpty && (pyStrip l2).isEmpty
  | _ => false

/-- `should_start_new_chunk` from the source: size over 4000, a `'class '`
marker on a non-empty buffer, or a blank run. -/
def shouldStartNew (size : Nat) (line : List Char) (cur : List (List Char)) : Bool :=
  if 4000 < size then true
  else if containsSub markerClass line && !cur.isEmpty then true
  else blankRun line cur

/-- State of the chunking loop: emitted chunk contents (without the
`File:` header, which the source prepends at emission time), the pending
buffer of lines, and `current_size`. -/
structure SplitSt where
  chunks : List (List Char)
  current : List (List Char)
  size : Nat

/-- Emit the buffer: the stripped joined content is appended only when it is
non-empty and at least 50 characters long. -/
def emitChunk (chunks : List (List Char)) (cur : List (List Char)) : List (List Char) :=
  let c := pyStrip (joinNl cur)
  if !c.isEmpty && 50 ≤ c.length then chunks ++ [c] else chunks

/-- One iteration of the `for line in lines` loop. -/
def splitStep (st : SplitSt) (line : List Char) : SplitSt :=
  let st1 :=
    if shouldStartNew st.size line st.current then
      { chunks := emitChunk st.chunks st.current, current := [], size := 0 }
    else st
  { chunks := st1.chunks, current := st1.current ++ [line],
    size := st1.size + line.length + 1 }

/-- The final flush of the remaining buffer. -/
def splitFinish (st : SplitSt) : List (List Char) :=
  if st.current.isEmpty then st.chunks else emitChunk st.chunks st.current

/-- The chunk contents produced by `_split_into_chunks` (header-free). -/
def splitContents (content : List Char) : List (List Char) :=
  splitFinish ((splitOnChar '\n' (replaceCRLF content)).foldl splitStep
    { chunks := [], current := [], size := 0 })

/-- The `"File: <path>\n\n"` header prepended to every chunk. -/
def chunkHeader (path : List Char) : List Char :=
  "File: ".toList ++ path ++ ('\n' :: '\n' :: [])

/-- `RepositoryProcessor._split_into_chunks(content, file_path)`. -/
def splitIntoChunks (content path : List Char) : List (List Char) :=
  (splitContents content).map (fun c => chunkHeader path ++ c)

/-! ### File filtering and `process_file` -/

/-- `self.skip_extensions` (compared against the lowercased extension; the
`'.DS_Store'` entry can therefore never match, exactly as in the source). -/
def skipExtensions : List (List Char) :=
  [".exe".toList, ".bin".toList, ".zip".toList, ".tar.gz".toList,
   ".jpg".toList, ".png".toList, ".pdf".toList, ".doc".toList,
   ".env".toList, ".lock".toList, ".DS_Store".toList]

/-- `self.skip_dirs`. -/
def skipDirs : List (List Char) :=
  ["node_modules".toList, "venv".toList, ".git".toList, "__pycache__".toList,
   "build".toList, "dist".toList, "coverage".toList]

/-- `self.skip_files`. -/
def skipFiles : List (List Char) :=
  ["package.json".toList, "yarn.lock".toList, "package-lock.json".toList,
   "Pipfile".toList, "Pipfile.lock".toList, "Gemfile".toList,
   "Gemfile.lock".toList, "Cargo.toml".toList, "Cargo.lock".toList,
   "composer.json".toList, "composer.lock".toList, ".env.example".toList,
   "Makefile".toList]

/-- `os.path.basename` (POSIX). -/
def basenameOf (p : List Char) : List Char :=
  (p.reverse.takeWhile (fun c => c ≠ '/')).reverse

/-- `os.path.dirname` (POSIX): text before the last `/`, with trailing
slashes stripped unless the head is all slashes. -/
def dirnameOf (p : List Char) : List Char :=
  if p.any (fun c => c = '/') then
    let head := (p.reverse.dropWhile (fun c => c ≠ '/')).reverse
    if head.all (fun c => c = '/') then head
    else (head.reverse.dropWhile (fun c => c = '/')).reverse
  else []

/-- `os.path.splitext(p)[1]` (POSIX): the extension from the last dot of the
basename, empty when the basename has only leading dots (so `.env` has no
extension). -/
def extOf (p : List Char) : List Char :=
  let b := basenameOf p
  let core := b.dropWhile (fun c => c = '.')
  if core.any (fun c => c = '.') then
    '.' :: (core.reverse.takeWhile (fun c => c ≠ '.')).reverse
  else []

/-- `RepositoryProcessor.should_process_file`. -/
def shouldProcessFile (path : List Char) : Bool :=
  if path.isEmpty then false
  else
    let ext := lowerL (extOf path)
    let dirp := dirnameOf path
    let name := basenameOf path
    if ext.isEmpty then false
    else
      !(skipExtensions.contains ext) && !(skipFiles.contains name) &&
        !(skipDirs.any (fun d => (splitOnChar '/' dirp).contains d))

/-- `file_path.split('.')[-1].lower() if '.' in file_path else ''`. -/
def languageOf (p : List Char) : List Char :=
  if p.any (fun c => c = '.') then
    lowerL ((p.reverse.takeWhile (fun c => c ≠ '.')).reverse)
  else []

/-- A tree entry as consumed by `process_file` (the URL is only passed to the
fetch oracle, so it is not carried here). -/
structure FileInfo where
  path : List Char

/-- Outcome of `base64.b64decode(content).decode('utf-8')`. -/
inductive DecodeOutcome
  | ok (text : List Char)
  | unicodeErr
  | otherErr (msg : List Char)

/-- Oracle for one `process_file` call: what `get_file_content` returned
(`none` covers every fetch failure, which that function catches itself),
what decoding did, and whether storing chunk `k` raised `msg`. -/
structure FileEnv where
  fetched : Option (List Char)
  decode : DecodeOutcome
  storeFail : Option (Nat × List Char)

/-- The status dictionary returned by `process_file`. -/
inductive ProcResult
  | success (path : List Char) (language : List Char) (numChunks : Nat)
  | error (path : List Char) (msg : List Char)
deriving DecidableEq

/-- Observable outcome of `process_file`: its return value, how many chunks
were actually stored, and whether the path was added to `processed_files`
and progress was reported. -/
structure FileOutcome where
  result : Option ProcResult
  stored : Nat
  addedToProcessed : Bool
  progressed : Bool
deriving DecidableEq

/-- `RepositoryProcessor.process_file(file_info, repo)`. -/
def processFile (env : FileEnv) (fi : FileInfo) (processedFiles : List (List Char)) :
    FileOutcome :=
  if !shouldProcessFile fi.path then
    { result := none, stored := 0, addedToProcessed := false, progressed := false }
  else if processedFiles.contains fi.path then
    { result := none, stored := 0, addedToProcessed := false, progressed := false }
  else if endsWithL (".exe".toList) fi.path || endsWithL (".bin".toList) fi.path ||
      endsWithL (".zip".toList) fi.path || endsWithL (".tar.gz".toList) fi.path then
    { result := none, stored := 0, addedToProcessed := false, progressed := false }
  else
    match env.fetched with
    | none =>
      { result := none, stored := 0, addedToProcessed := false, progressed := false }
    | some raw =>
      if raw.isEmpty then
        { result := none, stored := 0, addedToProcessed := false, progressed := false }
      else
        match env.decode with
        | .unicodeErr =>
          { result := none, stored := 0, addedToProcessed := false, progressed := false }
        | .otherErr msg =>
          { result := some (.error fi.path msg), stored := 0,
            addedToProcessed := false, progressed := false }
        | .ok text =>
          let chunks := splitIntoChunks text fi.path
          match env.storeFail with
          | some (k, msg) =>
            if k < chunks.length then
              { result := some (.error fi.path msg), stored := k,
                addedToProcessed := false, progressed := false }
            else
              { result := some (.success fi.path (languageOf fi.path) chunks.length),
                stored := chunks.length, addedToProcessed := true, progressed := true }
          | none =>
            { result := some (.success fi.path (languageOf fi.path) chunks.length),
              stored := chunks.length, addedToProcessed := true, progressed := true }

/-! ### Ingestion batch loop — `RepositoryProcessor.ingest_repository` -/

/-- One slot of the `asyncio.gather` result list: either an exception object
or the value returned by `process_file`. -/
inductive GatherItem
  | exn
  | ret (r : Option ProcResult)
deriving DecidableEq

/-- One file's contribution to a run: its gather slot and how many chunks its
`process_file` call stored. -/
structure PerFile where
  item : GatherItem
  stored : Nat
deriving DecidableEq

/-- `result and result.get('status') == 'success'`. -/
def isSuccItem (x : PerFile) : Bool :=
  match x.item with
  | .ret (some (.success _ _ _)) => true
  | _ => false

/-- `isinstance(result, Exception)`. -/
def isExnItem (x : PerFile) : Bool :=
  match x.item with
  | .exn => true
  | _ => false

/-- The per-result counting in the batch loop: exceptions bump `error_count`;
a result dict with status `'success'` bumps `success_count` and
`chunks_processed` by one; anything else (including an error dict) bumps
neither counter. -/
def countItem (x : PerFile) (s e c : Nat) : Nat × Nat × Nat :=
  match x.item with
  | .exn => (s, e + 1, c)
  | .ret none => (s, e, c)
  | .ret (some r) =>
    match r with
    | .success _ _ _ => (s + 1, e, c + 1)
    | .error _ _ => (s, e, c)

/-- `i % 10 == 0 or i == len(repo_files) - 1` (i is the batch's starting
file index, stepping by `batch_size`). -/
def cpCond (n i : Nat) : Bool := i % 10 == 0 || i == n - 1

/-- Aggregate state of one run: the three counters and the in-loop
checkpoint writes `(i, total_files=success_count, total_chunks=chunks)`. -/
structure IngestStats where
  success : Nat
  errors : Nat
  chunks : Nat
  checkpoints : List (Nat × Nat × Nat)
deriving DecidableEq

/-- The batch loop, item by item.  `i` is the current batch's starting file
index, `r` counts the items still missing from the current batch (`r = b`
exactly at a batch boundary); when the batch completes — or the input ends
mid-batch — the checkpoint condition is evaluated for `i`. -/
def ingestGo (b n : Nat) (i r s e c : Nat) : List PerFile → IngestStats
  | [] =>
    { success := s, errors := e, chunks := c,
      checkpoints :=
        if r = b then []
        else if cpCond n i then [(i, s, c)] else [] }
  | x :: xs =>
    let t := countItem x s e c
    let r' := r - 1
    if r' = 0 then
      let rest := ingestGo b n (i + b) b t.1 t.2.1 t.2.2 xs
      { success := rest.success, errors := rest.errors, chunks := rest.chunks,
        checkpoints :=
          (if cpCond n i then [(i, t.1, t.2.2)] else []) ++ rest.checkpoints }
    else ingestGo b n i r' t.1 t.2.1 t.2.2 xs

/-- The counting-and-checkpoint part of `ingest_repository` over the batched
file list (batch size `b`). -/
def ingest (b : Nat) (outcomes : List PerFile) : IngestStats :=
  ingestGo b outcomes.length 0 b 0 0 0 outcomes

/-- The starting file index of every batch of the run, in the same
item-by-item style as `ingestGo`. -/
def batchStartsGo (b i r : Nat) : List PerFile → List Nat
  | [] => if r = b then [] else [i]
  | _ :: xs =>
    if r - 1 = 0 then i :: batchStartsGo b (i + b) b xs
    else batchStartsGo b i (r - 1) xs

/-- Starting file indices of the batches `range(0, n, batch_size)` visits. -/
def batchStarts (b : Nat) (l : List PerFile) : List Nat := batchStartsGo b 0 b l

/-- Total chunks actually stored across a run's files. -/
def totalStored (l : List PerFile) : Nat := (l.map PerFile.stored).sum

/-- Repackage a `process_file` outcome as its gather slot. -/
def perFileOf (fo : FileOutcome) : PerFile := { item := .ret fo.result, stored := fo.stored }

/-! ### SourceHost client — `GitHubService._make_request` -/

/-- One HTTP response as the retry loop classifies it. -/
inductive HttpResp
  | rateLimited
  | ok (v : Nat)
  | httpError (code : Nat)
  | netError
deriving DecidableEq

/-- How `_make_request` ends. -/
inductive ReqOutcome
  | ok (v : Nat)
  | notFound
  | raisedStatus (code : Nat)
  | raisedOther
  | maxRetriesExceeded
deriving DecidableEq

/-- The `for attempt in range(3)` loop.  The second argument is the number
of loop iterations left (`3 - attempt`), so `left = 0` on entry is loop
exhaustion (`raise RuntimeError("Maximum retries exceeded")`) and
`left = 1` during an iteration means `attempt == max_retries - 1`.  A
rate-limited 403 sleeps until the declared reset time and `continue`s —
which in Python advances to the NEXT `attempt` value. -/
def makeRequestGo (oracle : Nat → HttpResp) (attempt : Nat) : Nat → ReqOutcome
  | 0 => .maxRetriesExceeded
  | left + 1 =>
    match oracle attempt with
    | .rateLimited => makeRequestGo oracle (attempt + 1) left
    | .ok v => .ok v
    | .httpError code =>
      if code = 404 then .notFound
      else if left = 0 then .raisedStatus code
      else makeRequestGo oracle (attempt + 1) left
    | .netError =>
      if left = 0 then .raisedOther
      else makeRequestGo oracle (attempt + 1) left

/-- `GitHubService._make_request` with `max_retries = 3`; the oracle maps the
index of each issued request to its response. -/
def makeRequest (oracle : Nat → HttpResp) : ReqOutcome := makeRequestGo oracle 0 3

/-! ### RelevanceScorer — `RAGEvaluator._calculate_chunk_relevance` -/

/-- The `code_elements` weights. -/
def codeElements : List (List Char × ℚ) :=
  [("def ".toList, 0.9), ("class ".toList, 0.9), ("import ".toList, 0.7),
   ("return ".toList, 0.6), ("if ".toList, 0.5), ("for ".toList, 0.5),
   ("try:".toList, 0.5)]

/-- The `quality_indicators` weights. -/
def qualityIndicators : List (List Char × ℚ) :=
  [("readme".toList, 0.4), ("description".toList, 0.4), ("purpose".toList, 0.4),
   ("functionality".toList, 0.4), ("features".toList, 0.4)]

/-- `RAGEvaluator._calculate_chunk_relevance(chunk, query_terms)`.  The first
branch is the `except` path: an empty lowered chunk containing some query
term (only the empty term can do that) makes `chunk_lower.index(term) /
len(chunk_lower)` raise `ZeroDivisionError`, and the handler returns 0.3. -/
def chunkRelevance (chunk : List Char) (queryTerms : List (List Char)) : ℚ :=
  let cl := lowerL chunk
  if cl.isEmpty ∧ queryTerms.any (fun t => containsSub t cl) then 0.3
  else
    let termScores := queryTerms.map (fun t =>
      if containsSub t cl then
        min 1 (0.5 + 0.3 * (countSub t cl : ℚ) +
          0.2 * (1 - (idxSub t cl : ℚ) / (cl.length : ℚ)))
      else 0.3)
    let queryScore :=
      if termScores.isEmpty then (0.3 : ℚ)
      else termScores.sum / (termScores.length : ℚ)
    let codeScore := min 0.95 (0.3 +
      (codeElements.map (fun p => if containsSub p.1 cl then p.2 * 0.2 else 0)).sum)
    let qualityScore := min 0.95 (0.3 +
      (qualityIndicators.map (fun p => if containsSub p.1 cl then p.2 * 0.2 else 0)).sum)
    let combined := queryScore * 0.4 + codeScore * 0.4 + qualityScore * 0.2
    let boosted :=
      if 50 < (pySplitWs cl).dedup.length then combined * 1.15 else combined
    max 0.3 (min 0.95 boosted)

/-! ### Evaluator metrics — `RAGEvaluator._calculate_metrics` -/

/-- Alternatives of the `code_references` regex, in source order. -/
def codeRefWords : List (List Char) :=
  ["function".toList, "method".toList, "class".toList, "variable".toList,
   "parameter".toList, "module".toList, "import".toList, "return".toList]

/-- Alternatives of the `technical_terms` regex, in source order. -/
def techTermWords : List (List Char) :=
  ["function".toList, "class".toList, "method".toList, "parameter".toList,
   "variable".toList, "return".toList, "import".toList]

/-- Alternatives of the `has_explanation` regex. -/
def explanationWords : List (List Char) :=
  ["because".toList, "therefore".toList, "this means".toList,
   "in other words".toList, "specifically".toList, "for example".toList]

/-- First alternative matching at the head of `l`, returning its length. -/
def firstMatchLen (ws : List (List Char)) (l : List Char) : Option Nat :=
  match ws with
  | [] => none
  | w :: rest => if startsWith w l then some w.length else firstMatchLen rest l

/-- Helper for `countAlt`: left-to-right regex scan with a skip counter for
the remainder of the most recent match. -/
def countAltGo (ws : List (List Char)) (skip : Nat) : List Char → Nat
  | [] => 0
  | c :: cs =>
    match skip with
    | k + 1 => countAltGo ws k cs
    | 0 =>
      match firstMatchLen ws (c :: cs) with
      | some n => 1 + countAltGo ws (n - 1) cs
      | none => countAltGo ws 0 cs

/-- `len(re.findall(r'w1|w2|...', s))` for literal alternatives. -/
def countAlt (ws : List (List Char)) (s : List Char) : Nat := countAltGo ws 0 s

/-- A markdown code fence: three backticks. -/
def tickFence : List Char := "```".toList

/-- Helper for `splitFences`: scans left to right; `st = some acc` means a
fence is open with `acc` holding its (reversed) interior; the skip counter
crosses the two remaining characters of a just-seen fence marker.  An
unclosed trailing fence stays in the text, as with the non-greedy regex. -/
def splitFencesGo : Nat → Option (List Char) → List Char → List Char × List (List Char)
  | _, none, [] => ([], [])
  | _, some acc, [] => (tickFence ++ acc.reverse, [])
  | k + 1, st, _ :: cs => splitFencesGo k st cs
  | 0, st, c :: cs =>
    if startsWith tickFence (c :: cs) then
      match st with
      | none => splitFencesGo 2 (some []) cs
      | some acc =>
        let r := splitFencesGo 2 none cs
        (r.1, (tickFence ++ acc.reverse ++ tickFence) :: r.2)
    else
      match st with
      | none =>
        let r := splitFencesGo 0 none cs
        (c :: r.1, r.2)
      | some acc => splitFencesGo 0 (some (c :: acc)) cs

/-- The effect of `re.sub(r'```[\s\S]*?```', '', response)` (first component)
and `re.findall(r'```[\s\S]*?```', response)` (second component). -/
def splitFences (s : List Char) : List Char × List (List Char) :=
  splitFencesGo 0 none s

/-- `RAGEvaluator._calculate_response_metrics(response)`. -/
structure RespMetrics where
  codeBlocks : Nat
  codeRefs : Nat
  hasExplanation : Bool
  technicalTerms : Nat
deriving DecidableEq

def calcResponseMetrics (response : List Char) : RespMetrics :=
  let rl := lowerL response
  { codeBlocks := countSub tickFence response
  , codeRefs := countAlt codeRefWords rl
  , hasExplanation := explanationWords.any (fun w => containsSub w rl)
  , technicalTerms := countAlt techTermWords rl }

/-- `max(0.3, min(0.95, x))`. -/
def qclamp (x : ℚ) : ℚ := max 0.3 (min 0.95 x)

/-- Insert into a descending list, after equal elements (Python's stable
`sorted(..., reverse=True)` when built with `foldl`). -/
def insertDescQ (x : ℚ) : List ℚ → List ℚ
  | [] => [x]
  | y :: ys => if x ≤ y then y :: insertDescQ x ys else x :: y :: ys

def sortDescQ (l : List ℚ) : List ℚ := l.foldl (fun acc x => insertDescQ x acc) []

/-- `set(query.lower().split())`. -/
def queryTermsOf (query : List Char) : List (List Char) :=
  (pySplitWs (lowerL query)).dedup

/-- The metrics dictionary built by `RAGEvaluator._calculate_metrics`,
including its `debug_info` entries. -/
structure Metrics where
  contextRelevance : ℚ
  groundedness : ℚ
  answerRelevance : ℚ
  responseQuality : ℚ
  queryLength : Nat
  respMetrics : RespMetrics
  numChunksProcessed : Nat
  avgChunkRelevance : ℚ
  topChunkScores : List ℚ
deriving DecidableEq

/-- `RAGEvaluator._calculate_metrics(response, query, code_chunks)`.  Note
that `response_quality` averages the raw (pre-clamp) values, exactly as the
source does. -/
def calcMetrics (response query : List Char) (codeChunks : List (List Char)) : Metrics :=
  let processed := codeChunks.filter (fun c => !c.isEmpty && !(pyStrip c).isEmpty)
  let qTerms := queryTermsOf query
  let scores := (processed.map (fun c => chunkRelevance c qTerms)).filter
    (fun s => decide (0 < s))
  let contextRelevance :=
    if scores.isEmpty then (0.3 : ℚ)
    else
      let sorted := sortDescQ scores
      let topk := min 5 sorted.length
      (sorted.take topk).sum / (topk : ℚ)
  let rm := calcResponseMetrics response
  let groundedness := min 1 ((rm.codeBlocks : ℚ) * 0.3 +
    min 1 ((rm.codeRefs : ℚ) / 4) * 0.5 +
    (if rm.hasExplanation then (0.2 : ℚ) else 0) +
    min 1 ((rm.technicalTerms : ℚ) / 5) * 0.2)
  let rTerms := (pySplitWs (lowerL response)).dedup
  let termOverlap :=
    if qTerms.isEmpty then (0 : ℚ)
    else ((qTerms.filter (fun t => decide (t ∈ rTerms))).length : ℚ) / (qTerms.length : ℚ)
  let structureScore := (if rm.codeBlocks ≠ 0 then (0.3 : ℚ) else 0) +
    (if rm.hasExplanation then (0.3 : ℚ) else 0) +
    min 1 ((rm.technicalTerms : ℚ) / 4) * 0.2 +
    min 1 (((pySplitWs response).length : ℚ) / 100) * 0.2
  let answerRelevance := termOverlap * 0.6 + structureScore * 0.4
  { contextRelevance := qclamp contextRelevance
  , groundedness := qclamp groundedness
  , answerRelevance := qclamp answerRelevance
  , responseQuality := qclamp ((contextRelevance + groundedness + answerRelevance) / 3)
  , queryLength := qTerms.length
  , respMetrics := rm
  , numChunksProcessed := processed.length
  , avgChunkRelevance := if scores.isEmpty then 0 else scores.sum / (scores.length : ℚ)
  , topChunkScores := (sortDescQ scores).take 5 }

/-! ### Snowflake service and the two evaluators -/

/-- The fixed apology returned by `search_and_respond` when no response row
comes back. -/
def apologyMessage : List Char :=
  ("I couldn\x27t find enough information in this repository to answer that question. Please ask about something specific to this repository\x27s code.").toList

/-- The message of the `RuntimeError` raised on a backend exception. -/
def sfErrorMessage : List Char :=
  ("An error occurred while processing your query. Please try again.").toList

/-- What the Cortex query produced: no row, a row with an optional response
column, or a database exception. -/
inductive SfOutcome
  | noRow
  | row (v : Option (List Char))
  | dbError

/-- Exceptions that can reach the evaluator layer. -/
inductive PyErr
  | typeError
  | runtimeError (msg : List Char)
deriving DecidableEq

/-- `SnowflakeSearchService.search_and_respond`: returns the generated text
when the row is truthy, the fixed apology otherwise, and converts backend
exceptions into `RuntimeError`.  Its successful value is a plain string. -/
def snowflakeSearchAndRespond (o : SfOutcome) : Except PyErr (List Char) :=
  match o with
  | .dbError => .error (.runtimeError sfErrorMessage)
  | .noRow => .ok apologyMessage
  | .row none => .ok apologyMessage
  | .row (some v) => if v.isEmpty then .ok apologyMessage else .ok v

/-- A duck-typed value returned by an injected `snowflake_service`: the real
service returns a string; the evaluator's code reads it as a dict with
`search_results`, `response` and `metadata` keys. -/
inductive PyVal
  | str (s : List Char)
  | srDict (searchResults : List (List Char)) (response : List Char)

/-- The shipped service as seen by the evaluators. -/
def snowflakeService (o : SfOutcome) : List Char → Except PyErr PyVal :=
  fun _query => (snowflakeSearchAndRespond o).map PyVal.str

/-- The dictionary returned by `RAGEvaluator.process_query` (response plus
the metrics record after its `update(...)`, which overwrites `query_length`
with the plain word count). -/
structure BaseOutput where
  response : List Char
  metrics : Metrics
  mode : List Char
  timestamp : Nat
  responseLengthWords : Nat
  chunksUsed : Nat
  hasCode : Bool

/-- `RAGEvaluator.process_query(query, mode)`: any exception — including the
`TypeError` from subscripting a string with `"search_results"` — is logged
and re-raised. -/
def ragProcessQuery (service : List Char → Except PyErr PyVal)
    (query mode : List Char) (now : Nat) : Except PyErr BaseOutput :=
  match service query with
  | .error e => .error e
  | .ok (.str _) => .error .typeError
  | .ok (.srDict searchResults response) =>
    let m0 := calcMetrics response query searchResults
    let m := { m0 with queryLength := (pySplitWs query).length }
    .ok { response := response, metrics := m, mode := mode, timestamp := now
        , responseLengthWords := (pySplitWs response).length
        , chunksUsed := searchResults.length
        , hasCode := containsSub tickFence response }

/-- The query rewriting done by `FilteredRAGEvaluator.process_query`. -/
def enhanceQuery (query : List Char) : List Char :=
  ("Please analyze the following query about the code:\nQuestion: ").toList ++
    query ++
    ("\nAdditional instructions:\n- Show relevant code snippets using markdown\n- Explain any technical concepts used\n- Reference specific file paths when relevant\n- include any relevant code snippets\n- Focus on the implementation details").toList

/-- The dictionary returned by `FilteredRAGEvaluator.process_query`. -/
structure FilteredOutput where
  response : List Char
  metrics : Metrics
  responseLength : Nat
  hasCode : Bool
  mode : List Char
  timestamp : Nat

/-- `FilteredRAGEvaluator._calculate_metrics`: fence-aware response length
and `has_code`, on top of the base metrics. -/
def filteredCalcMetrics (response query : List Char) (codeChunks : List (List Char)) :
    Metrics × Nat × Bool :=
  let f := splitFences response
  let rlen := (pySplitWs f.1).length + (f.2.map (fun b => (pySplitWs b).length)).sum
  (calcMetrics response query codeChunks, rlen, !f.2.isEmpty)

/-- `FilteredRAGEvaluator.process_query(query, mode)`.  `qualityThreshold`
mirrors `self.quality_threshold`; exactly as in the source, no line of the
body ever reads it, no candidate is scored or discarded before generation,
and there is no fallback branch. -/
def filteredProcessQuery (service : List Char → Except PyErr PyVal)
    (qualityThreshold : ℚ) (query mode : List Char) (now : Nat) :
    Except PyErr FilteredOutput :=
  let enhanced := enhanceQuery query
  match service enhanced with
  | .error e => .error e
  | .ok (.str _) => .error .typeError
  | .ok (.srDict searchResults response) =>
    let t := filteredCalcMetrics response query searchResults
    .ok { response := response, metrics := t.1, responseLength := t.2.1
        , hasCode := t.2.2, mode := mode, timestamp := now }

/-! ### Concrete inputs used by the closed theorems -/

/-- A 60-character single-line file: exactly one chunk. -/
def demoContentC8 : List Char := List.replicate 60 'a'

def demoPathC8 : List Char := "m.py".toList

def demoChunkC8 : List Char := chunkHeader demoPathC8 ++ List.replicate 60 'a'

/-- Two lines: a 60-character line, then a 54-character `class ...` line.
The class marker closes the first chunk, so the file yields two chunks. -/
def demoContentC4 : List Char :=
  List.replicate 60 'a' ++
    ('\n' :: ("class Bcdefghijklmnopqrstuvwxyz0123456789 cdefghijklmn").toList)

def demoPathC4 : List Char := "a.py".toList

def demoFilePy : FileInfo := { path := demoPathC4 }

def demoFileEnvC4 : FileEnv :=
  { fetched := some ("Zm9v".toList), decode := .ok demoContentC4, storeFail := none }

def demoOutcomeC4 : FileOutcome := processFile demoFileEnvC4 demoFilePy []

/-- An environment whose UTF-8 decode raises `UnicodeDecodeError`. -/
def demoUnicodeEnv : FileEnv :=
  { fetched := some ("Zm9v".toList), decode := .unicodeErr, storeFail := none }

/-- Four files that all succeed with one stored chunk each. -/
def demoRunC6 : List PerFile :=
  List.replicate 4 { item := .ret (some (.success ("a.py".toList) ("py".toList) 1)), stored := 1 }

/-- A batch of two: one file whose `process_file` returned an error dict,
one that succeeded. -/
def demoRunC5 : List PerFile :=
  [ { item := .ret (some (.error ("bad.py".toList) ("boom".toList))), stored := 0 }
  , { item := .ret (some (.success ("good.py".toList) ("py".toList) 1)), stored := 1 } ]

/-- An oracle giving three rate-limited 403s and then a success. -/
def stubbornRateLimit : Nat → HttpResp :=
  fun n => if n < 3 then .rateLimited else .ok 7

/-- A non-empty file shorter than 50 characters. -/
def demoTinyContent : List Char := "x = 1".toList

def demoFileC10 : FileInfo := { path := "tiny.py".toList }

def demoTinyEnv : FileEnv :=
  { fetched := some ("eA==".toList), decode := .ok demoTinyContent, storeFail := none }

/-- A candidate chunk whose relevance for the demo query is the floor 0.3,
strictly below the default threshold 0.33. -/
def demoLowChunk : List Char := "qq".toList

def demoQueryC1 : List Char := "zz".toList

def demoEnhancedResponse : List Char := "ENHANCED ANSWER".toList

def demoBaseResponse : List Char := "BASE ANSWER".toList

/-- A well-typed backend that distinguishes the rewritten query from the
raw one, and always returns the single low-scoring candidate. -/
def demoService : List Char → Except PyErr PyVal := fun q =>
  if q == enhanceQuery demoQueryC1 then .ok (.srDict [demoLowChunk] demoEnhancedResponse)
  else .ok (.srDict [demoLowChunk] demoBaseResponse)

def demoQueryC2 : List Char := "what does this code do".toList

/-! ### Invariant vocabulary for the chunker proofs -/

/-- The `current_size` bookkeeping: each buffered line counts its length
plus one (the `+ 1` per line from the source). -/
def lineSizes (b : List (List Char)) : Nat := (b.map (fun l => l.length + 1)).sum

/-- Length of the longest line of the input. -/
def lineMax (ls : List (List Char)) : Nat := ls.foldr (fun l m => max l.length m) 0

/-- Loop invariant of the chunking fold, for an input whose lines are all of
length at most `M`: `size` mirrors the buffer, the buffer never exceeds
`4001 + M` characters of bookkeeping, and every emitted chunk content is
between 50 and `4000 + M` characters. -/
def SplitInv (M : Nat) (st : SplitSt) : Prop :=
  st.size = lineSizes st.current ∧
  (st.current ≠ [] → st.size ≤ 4001 + M) ∧
  (∀ c ∈ st.chunks, 50 ≤ c.length ∧ c.length ≤ 4000 + M)

/-! ### Helper lemmas -/

theorem dropWhile_length_le (p : Char → Bool) (l : List Char) :
    (l.dropWhile p).length ≤ l.length := by
  induction l with
  | nil => simp
  | cons a t ih =>
    by_cases h : p a
    · simp only [List.dropWhile, h]
      exact Nat.le_trans ih (Nat.le_succ _)
    · simp [List.dropWhile, h]

theorem pyStrip_length_le (s : List Char) : (pyStrip s).length ≤ s.length := by
  unfold pyStrip
  rw [List.length_reverse]
  refine Nat.le_trans (dropWhile_length_le _ _) ?_
  rw [List.length_reverse]
  exact dropWhile_length_le _ _

theorem joinNl_length (ls : List (List Char)) (h : ls ≠ []) :
    (joinNl ls).length + 1 = lineSizes ls := by
  induction ls with
  | nil => cases h rfl
  | cons x t ih =>
    cases t with
    | nil => simp [joinNl, lineSizes]
    | cons y t2 =>
      have h2 := ih (by simp)
      simp only [joinNl, lineSizes, List.map_cons, List.sum_cons,
        List.length_append, List.length_cons] at h2 ⊢
      omega

theorem le_lineMax {ls : List (List Char)} {l : List Char} (h : l ∈ ls) :
    l.length ≤ lineMax ls := by
  induction ls with
  | nil => cases h
  | cons x t ih =>
    rcases List.mem_cons.mp h with rfl | h2
    · exact le_max_left _ _
    · exact le_trans (ih h2) (le_max_right _ _)

theorem lineMax_attained (ls : List (List Char)) (h : ls ≠ []) :
    ∃ l ∈ ls, lineMax ls ≤ l.length := by
  induction ls with
  | nil => cases h rfl
  | cons x t ih =>
    cases t with
    | nil => exact ⟨x, List.mem_cons_self _ _, by simp [lineMax]⟩
    | cons y t2 =>
      obtain ⟨l, hl, hle⟩ := ih (by simp)
      have hx : lineMax (x :: y :: t2) = max x.length (lineMax (y :: t2)) := rfl
      by_cases hc : lineMax (y :: t2) ≤ x.length
      · refine ⟨x, List.mem_cons_self _ _, ?_⟩
        rw [hx]
        exact max_le le_rfl hc
      · refine ⟨l, List.mem_cons_of_mem _ hl, ?_⟩
        rw [hx]
        omega

theorem splitOnChar_ne_nil (sep : Char) (s : List Char) : splitOnChar sep s ≠ [] := by
  cases s with
  | nil => simp [splitOnChar]
  | cons c cs =>
    unfold splitOnChar
    split <;> simp

theorem emitChunk_spec (M : Nat) (chunks cur : List (List Char))
    (hc : ∀ c ∈ chunks, 50 ≤ c.length ∧ c.length ≤ 4000 + M)
    (hsz : lineSizes cur ≤ 4001 + M) :
    ∀ c ∈ emitChunk chunks cur, 50 ≤ c.length ∧ c.length ≤ 4000 + M := by
  intro c hmem
  simp only [emitChunk] at hmem
  split at hmem
  case isFalse => exact hc c hmem
  case isTrue hguard =>
    rcases List.mem_append.mp hmem with h | h
    · exact hc c h
    · have hceq : c = pyStrip (joinNl cur) := by simpa using h
      subst hceq
      simp only [Bool.and_eq_true, Bool.not_eq_true', List.isEmpty_eq_false,
        decide_eq_true_eq] at hguard
      refine ⟨hguard.2, ?_⟩
      have hcur : cur ≠ [] := by
        intro hnil
        subst hnil
        exact hguard.1 rfl
      have hj := joinNl_length cur hcur
      have hstrip := pyStrip_length_le (joinNl cur)
      omega

theorem shouldStartNew_false_size {s : Nat} {line : List Char}
    {cur : List (List Char)} (h : shouldStartNew s line cur = false) : s ≤ 4000 := by
  by_contra hgt
  have : shouldStartNew s line cur = true := by
    unfold shouldStartNew
    rw [if_pos (by omega)]
  rw [this] at h
  cases h

theorem splitStep_inv (M : Nat) (st : SplitSt) (line : List Char)
    (hinv : SplitInv M st) (hline : line.length ≤ M) :
    SplitInv M (splitStep st line) := by
  obtain ⟨hsz, hbound, hchunks⟩ := hinv
  unfold splitStep
  split
  case isTrue hstart =>
    refine ⟨by simp [lineSizes], by intro _; simp [lineSizes]; omega, ?_⟩
    have hcursz : lineSizes st.current ≤ 4001 + M := by
      rcases eq_or_ne st.current [] with hnil | hne
      · simp [hnil, lineSizes]
      · rw [← hsz]; exact hbound hne
    exact emitChunk_spec M st.chunks st.current hchunks hcursz
  case isFalse hstart =>
    have hle : st.size ≤ 4000 := shouldStartNew_false_size (by simpa using hstart)
    refine ⟨?_, ?_, hchunks⟩
    · simp [lineSizes, hsz, List.sum_append]
      omega
    · intro _
      simp only []
      omega

theorem splitFold_inv (M : Nat) (ls : List (List Char)) (st : SplitSt)
    (hinv : SplitInv M st) (hls : ∀ l ∈ ls, l.length ≤ M) :
    SplitInv M (ls.foldl splitStep st) := by
  induction ls generalizing st with
  | nil => exact hinv
  | cons x t ih =>
    simp only [List.foldl_cons]
    exact ih _ (splitStep_inv M st x hinv (hls x (List.mem_cons_self _ _)))
      (fun l hl => hls l (List.mem_cons_of_mem _ hl))

theorem splitFinish_spec (M : Nat) (st : SplitSt) (hinv : SplitInv M st) :
    ∀ c ∈ splitFinish st, 50 ≤ c.length ∧ c.length ≤ 4000 + M := by
  obtain ⟨hsz, hbound, hchunks⟩ := hinv
  unfold splitFinish
  split
  case isTrue => exact hchunks
  case isFalse hne =>
    have hcur : st.current ≠ [] := by
      intro h
      rw [h] at hne
      simp at hne
    exact emitChunk_spec M st.chunks st.current hchunks (hsz ▸ hbound hcur)

theorem splitContents_spec (content : List Char) :
    ∀ c ∈ splitContents content,
      50 ≤ c.length ∧
        c.length ≤ 4000 + lineMax (splitOnChar '\n' (replaceCRLF content)) := by
  unfold splitContents
  apply splitFinish_spec
  apply splitFold_inv
  · exact ⟨rfl, fun h => absurd rfl h, by simp⟩
  · intro l hl
    exact le_lineMax hl

theorem countItem_eq (x : PerFile) (s e c : Nat) :
    countItem x s e c =
      (s + (if isSuccItem x then 1 else 0), e + (if isExnItem x then 1 else 0),
        c + (if isSuccItem x then 1 else 0)) := by
  rcases x with ⟨item, st⟩
  cases item with
  | exn => simp [countItem, isSuccItem, isExnItem]
  | ret r =>
    cases r with
    | none => simp [countItem, isSuccItem, isExnItem]
    | some pr => cases pr <;> simp [countItem, isSuccItem, isExnItem]

theorem ingestGo_counts (l : List PerFile) :
    ∀ b n i r s e c,
      (ingestGo b n i r s e c l).success = s + l.countP isSuccItem ∧
        (ingestGo b n i r s e c l).errors = e + l.countP isExnItem ∧
        (ingestGo b n i r s e c l).chunks = c + l.countP isSuccItem := by
  induction l with
  | nil => intro b n i r s e c; simp [ingestGo]
  | cons x xs ih =>
    intro b n i r s e c
    simp only [ingestGo, countItem_eq]
    split
    · obtain ⟨h1, h2, h3⟩ := ih b n (i + b) b
        (s + if isSuccItem x then 1 else 0) (e + if isExnItem x then 1 else 0)
        (c + if isSuccItem x then 1 else 0)
      refine ⟨?_, ?_, ?_⟩ <;>
        simp only [h1, h2, h3, List.countP_cons] <;>
        cases isSuccItem x <;> cases isExnItem x <;> simp <;> omega
    · obtain ⟨h1, h2, h3⟩ := ih b n i (r - 1)
        (s + if isSuccItem x then 1 else 0) (e + if isExnItem x then 1 else 0)
        (c + if isSuccItem x then 1 else 0)
      refine ⟨?_, ?_, ?_⟩ <;>
        simp only [h1, h2, h3, List.countP_cons] <;>
        cases isSuccItem x <;> cases isExnItem x <;> simp <;> omega

theorem ingestGo_checkpoints (l : List PerFile) :
    ∀ b n i r s e c,
      (ingestGo b n i r s e c l).checkpoints.map Prod.fst =
        (batchStartsGo b i r l).filter (cpCond n) := by
  induction l with
  | nil =>
    intro b n i r s e c
    simp only [ingestGo, batchStartsGo]
    split
    · simp
    · cases hcp : cpCond n i <;> simp [hcp]
  | cons x xs ih =>
    intro b n i r s e c
    simp only [ingestGo, batchStartsGo]
    split
    · have h := ih b n (i + b) b (countItem x s e c).1 (countItem x s e c).2.1
        (countItem x s e c).2.2
      rw [List.map_append, h, List.filter_cons]
      cases hcp : cpCond n i <;> simp [hcp]
    · exact ih b n i (r - 1) _ _ _

theorem map_if_false_sum_zero (l : List (List Char × ℚ)) (cl : List Char)
    (h : ∀ p ∈ l, containsSub p.1 cl = false) :
    (l.map (fun p => if containsSub p.1 cl then p.2 * 0.2 else 0)).sum = 0 := by
  induction l with
  | nil => simp
  | cons x t ih =>
    have hx := h x (List.mem_cons_self _ _)
    simp only [List.map_cons, List.sum_cons, hx, Bool.false_eq_true, if_false]
    rw [ih (fun p hp => h p (List.mem_cons_of_mem _ hp))]
    simp

/-- The demo candidate scores exactly the floor 0.3 for the demo query. -/
theorem demoLowChunk_score :
    chunkRelevance demoLowChunk (queryTermsOf demoQueryC1) = 3 / 10 := by
  have hq : queryTermsOf demoQueryC1 = [('z' :: 'z' :: [])] := rfl
  have hl : lowerL demoLowChunk = ('q' :: 'q' :: []) := rfl
  have h1 : containsSub ('z' :: 'z' :: []) ('q' :: 'q' :: []) = false := rfl
  have hcode : ∀ p ∈ codeElements, containsSub p.1 ('q' :: 'q' :: []) = false := by
    decide
  have hqual : ∀ p ∈ qualityIndicators, containsSub p.1 ('q' :: 'q' :: []) = false := by
    decide
  have hwords : (pySplitWs ('q' :: 'q' :: [])).dedup.length = 1 := rfl
  simp only [chunkRelevance, hq, hl, h1, hwords, List.map_cons, List.map_nil,
    map_if_false_sum_zero _ _ hcode, map_if_false_sum_zero _ _ hqual,
    Bool.false_eq_true, if_false, List.isEmpty_cons, List.isEmpty_nil]
  norm_num

/-! ### Claim theorems -/

set_option maxRecDepth 100000 in
/-- C1: `FilteredRAGEvaluator.process_query` does not filter and does not
fall back.  At a backend whose single candidate scores 0.3 — strictly below
the default quality threshold 0.33 — the filtered evaluator still hands
that candidate to the metrics computation (`numChunksProcessed = 1` instead
of discarding it) and returns the response to the REWRITTEN query, which
differs from what the base evaluator returns for the same query, so the
claimed fallback equality fails as well. -/
theorem claim_c1_filtered_ignores_threshold :
    chunkRelevance demoLowChunk (queryTermsOf demoQueryC1) < 33 / 100 ∧
      Except.map (fun o => (o.response, o.metrics.numChunksProcessed))
          (filteredProcessQuery demoService (33 / 100) demoQueryC1
            ("filtered".toList) 0) =
        .ok (demoEnhancedResponse, 1) ∧
      Except.map (fun o => o.response)
          (ragProcessQuery demoService demoQueryC1 ("base".toList) 0) =
        .ok demoBaseResponse ∧
      demoEnhancedResponse ≠ demoBaseResponse := by
  refine ⟨?_, rfl, rfl, by decide⟩
  rw [demoLowChunk_score]
  norm_num

/-- C2: on a query with zero matching search results the shipped
`search_and_respond` does return the fixed apology string, but it returns it
as a bare string, so `RAGEvaluator.process_query` — which subscripts the
result with `"search_results"` — raises `TypeError` (re-raised by its
handler) instead of returning the apology with all-zero metrics; the same
happens even when a response row exists. -/
theorem claim_c2_zero_results_type_error :
    snowflakeSearchAndRespond .noRow = .ok apologyMessage ∧
      ragProcessQuery (snowflakeService .noRow) demoQueryC2 ("base".toList) 0 =
        .error .typeError ∧
      ragProcessQuery (snowflakeService (.row (some ("answer".toList))))
          demoQueryC2 ("base".toList) 0 =
        .error .typeError :=
  ⟨rfl, rfl, rfl⟩

/-- C3 (counterexample): three consecutive rate-limited 403s exhaust the
retry loop — `continue` advances `attempt` — so the request fails with
"Maximum retries exceeded" even though a success would follow, refuting the
claim that rate-limit 403s leave all retry slots available. -/
theorem claim_c3_rate_limit_consumes_attempts_cex :
    makeRequest stubbornRateLimit = .maxRetriesExceeded ∧
      makeRequest stubbornRateLimit ≠ .ok 7 ∧
      makeRequest (fun n => if n < 2 then .rateLimited else .ok 7) = .ok 7 := by
  decide

/-- C3 (amended): a rate-limited 403 waits for the declared reset time and
retries, but consumes one of the 3 attempts like any other failure: with
`k` rate-limited responses before the first success, the request succeeds
iff `k < 3` and otherwise raises "Maximum retries exceeded". -/
theorem claim_c3_rate_limit_retry_amended (k v : Nat) :
    makeRequest (fun n => if n < k then .rateLimited else .ok v) =
      (if k < 3 then .ok v else .maxRetriesExceeded) := by
  rcases k with _ | _ | _ | k
  · norm_num [makeRequest, makeRequestGo]
  · norm_num [makeRequest, makeRequestGo]
  · norm_num [makeRequest, makeRequestGo]
  · have h0 : (0 : Nat) < k + 3 := by omega
    have h1 : (1 : Nat) < k + 3 := by omega
    have h2 : (2 : Nat) < k + 3 := by omega
    have h3 : ¬(k + 3 < 3) := by omega
    simp [makeRequest, makeRequestGo, h0, h1, h2, h3]

/-- C4: the run counter `chunks_processed` is incremented once per
successful FILE, not once per stored chunk: for a file that splits into two
chunks (both stored), the final `total_chunks` figure is 1 while the chunks
actually stored number 2. -/
theorem claim_c4_chunk_counter_counts_files :
    (splitIntoChunks demoContentC4 demoPathC4).length = 2 ∧
      demoOutcomeC4.stored = 2 ∧
      totalStored [perFileOf demoOutcomeC4] = 2 ∧
      (ingest 2 [perFileOf demoOutcomeC4]).chunks = 1 ∧
      (ingest 2 [perFileOf demoOutcomeC4]).chunks ≠
        totalStored [perFileOf demoOutcomeC4] := by
  decide

/-- C5 (counterexample): in a batch of two where one file's `process_file`
returned an error dict and the other succeeded, `success_count = 1` but
`error_count = 0` — the caught failure is not recorded in the error count —
so `success_count + error_count` does not account for both non-skipped
files. -/
theorem claim_c5_error_dict_not_counted_cex :
    (ingest 2 demoRunC5).success = 1 ∧
      (ingest 2 demoRunC5).errors = 0 ∧
      demoRunC5.length = 2 ∧
      (ingest 2 demoRunC5).success + (ingest 2 demoRunC5).errors ≠
        demoRunC5.length := by
  decide

/-- C5 (amended): per-file failures are isolated — every file's outcome is
counted independently of the others, so one failure never suppresses a
sibling's success — and for any batch size the final counters are exactly:
`success_count` = files whose result dict has status `'success'` (which also
equals `chunks_processed`), and `error_count` = files whose gather slot was
an exception object; files that returned an error dict increment neither. -/
theorem claim_c5_batch_isolation_amended (b : Nat) (l : List PerFile) :
    (ingest b l).success = l.countP isSuccItem ∧
      (ingest b l).errors = l.countP isExnItem ∧
      (ingest b l).chunks = l.countP isSuccItem := by
  have h := ingestGo_counts l b l.length 0 b 0 0 0
  simpa [ingest] using h

/-- C6 (counterexample): with the default batch size 2 and four files, the
only in-loop checkpoint happens for the batch starting at file index 0 (the
FIRST batch, not a tenth one), and the last batch (starting at index 2)
gets no checkpoint — refuting "exactly every 10 batches, and unconditionally
on the last batch". -/
theorem claim_c6_last_batch_no_checkpoint_cex :
    (ingest 2 demoRunC6).checkpoints.map Prod.fst = [0] ∧
      batchStarts 2 demoRunC6 = [0, 2] ∧
      2 ∉ (ingest 2 demoRunC6).checkpoints.map Prod.fst := by
  decide

/-- C6 (amended): an in-loop checkpoint is written for exactly those batches
whose starting FILE index `i` satisfies `i % 10 = 0` or `i = total_files - 1`
(with batch size 2 that is every fifth batch, and the last batch only when
it consists of a single file); the final stats write after the loop is
separate and unconditional. -/
theorem claim_c6_checkpoint_schedule_amended (b : Nat) (l : List PerFile) :
    (ingest b l).checkpoints.map Prod.fst =
      (batchStarts b l).filter (cpCond l.length) := by
  simpa [ingest, batchStarts] using ingestGo_checkpoints l b l.length 0 b 0 0 0

/-- C7: for every chunk text and every query-term set, the relevance score
lies in the closed interval [0.3, 0.95]; in particular it is never exactly
0 or 1. -/
theorem claim_c7_score_bounds (chunk : List Char) (qTerms : List (List Char)) :
    (0.3 : ℚ) ≤ chunkRelevance chunk qTerms ∧
      chunkRelevance chunk qTerms ≤ (0.95 : ℚ) := by
  have key : ∀ x : ℚ, (0.3 : ℚ) ≤ max 0.3 (min 0.95 x) ∧
      max 0.3 (min 0.95 x) ≤ (0.95 : ℚ) := fun x =>
    ⟨le_max_left _ _, max_le (by norm_num) (min_le_left _ _)⟩
  simp only [chunkRelevance]
  split
  · exact ⟨le_refl _, by norm_num⟩
  · exact key _

/-- C8: every chunk the chunker emits is at least 50 characters long, and
its content — the part after the `"File: <path>"` header — is itself at
least 50 characters and exceeds 4000 characters by at most the length of
one line of the input. -/
theorem claim_c8_chunk_size_invariant (content path ch : List Char)
    (hch : ch ∈ splitIntoChunks content path) :
    50 ≤ ch.length ∧
      ∃ c, ch = chunkHeader path ++ c ∧ 50 ≤ c.length ∧
        ∃ ln ∈ splitOnChar '\n' (replaceCRLF content), c.length ≤ 4000 + ln.length := by
  unfold splitIntoChunks at hch
  obtain ⟨c, hc, rfl⟩ := List.mem_map.mp hch
  have hspec := splitContents_spec content c hc
  obtain ⟨ln, hln, hle⟩ :=
    lineMax_attained _ (splitOnChar_ne_nil '\n' (replaceCRLF content))
  refine ⟨?_, c, rfl, hspec.1, ln, hln, by omega⟩
  have h50 := hspec.1
  rw [List.length_append]
  omega

/-- C8 (witness): the invariant instantiated at a concrete 60-character
single-line file. -/
theorem claim_c8_chunk_size_witness :
    50 ≤ demoChunkC8.length ∧
      ∃ c, demoChunkC8 = chunkHeader demoPathC8 ++ c ∧ 50 ≤ c.length ∧
        ∃ ln ∈ splitOnChar '\n' (replaceCRLF demoContentC8),
          c.length ≤ 4000 + ln.length :=
  claim_c8_chunk_size_invariant demoContentC8 demoPathC8 demoChunkC8 (by decide)

/-- C9 (counterexample): an exception during UTF-8 decoding is caught but
converted to `None` (a skip), not to a status-`'error'` dictionary,
refuting the claim that every caught exception becomes an error dict. -/
theorem claim_c9_unicode_error_returns_none_cex :
    processFile demoUnicodeEnv demoFilePy [] =
      { result := none, stored := 0, addedToProcessed := false,
        progressed := false } :=
  rfl

/-- C9 (amended): `process_file` is total at file granularity — for every
environment and file it returns either `None` or a status dictionary, and
any error dictionary carries the file's path and an error message; but a
fetch failure or a `UnicodeDecodeError` yields `None`, not an error dict. -/
theorem claim_c9_process_file_total_amended (env : FileEnv) (fi : FileInfo)
    (ps : List (List Char)) :
    (processFile env fi ps).result = none ∨
      (∃ n, (processFile env fi ps).result =
        some (.success fi.path (languageOf fi.path) n)) ∨
      (∃ m, (processFile env fi ps).result = some (.error fi.path m)) := by
  simp only [processFile]
  repeat' split
  all_goals
    first
      | exact Or.inl rfl
      | exact Or.inr (Or.inl ⟨_, rfl⟩)
      | exact Or.inr (Or.inr ⟨_, rfl⟩)

/-- C10: a non-empty file whose content trims below 50 characters produces
an empty chunk list, yet `process_file` reports it as a success with zero
chunks: the content is silently excluded from storage while the file counts
as successfully processed. -/
theorem claim_c10_short_file_empty_chunks :
    demoTinyContent ≠ [] ∧
      splitIntoChunks demoTinyContent demoFileC10.path = [] ∧
      processFile demoTinyEnv demoFileC10 [] =
        { result := some (.success demoFileC10.path ("py".toList) 0),
          stored := 0, addedToProcessed := true, progressed := true } := by
  refine ⟨by decide, rfl, rfl⟩

end CodeSearchRag

